import Mathlib

/-!
# Verification of the kneedle-rs knee/elbow detection library

Shallow embedding of `src/lib.rs` and `src/maths.rs` of the `kneedle-rs`
repository.  `f64` values are modelled as real numbers with exact arithmetic;
the named `f64` constants (`f64::MIN`, `f64::MIN_POSITIVE`) are embedded as
their exact rational values.  Fallible Rust functions returning
`Result<_, &'static str>` are modelled as `Except String _`; a Rust panic
(integer division by zero) is modelled as an `Except.error` carrying the panic
message, which is justified in place where it is used.
-/

noncomputable section

namespace KneedleRs

/-- `f64::MIN`, the least finite `f64`: `-(2 - 2⁻⁵²)·2¹⁰²³`. -/
def f64MIN : ℝ := -((2 - ((2:ℝ)^(52:ℕ))⁻¹) * (2:ℝ)^(1023:ℕ))

/-- `f64::MIN_POSITIVE`, the least positive normal `f64`: `2⁻¹⁰²²`. -/
def f64MINPOS : ℝ := ((2:ℝ)^(1022:ℕ))⁻¹

/-- `maths.rs::gaussian`: `height * exp(-(x-center)² / (2·width²))`. -/
def gaussian (x height center width : ℝ) : ℝ :=
  height * Real.exp (-((x - center) * (x - center)) / (2 * width * width))

/-- The index score of `maths.rs::gaussian_smooth2d`:
`((j as i32 - i as i32) / w as i32) as f64).abs()`.
Rust `i32` division truncates toward zero, which is `Int.tdiv`. -/
def indexScore (i j w : ℕ) : ℝ :=
  |((Int.tdiv ((j:ℤ) - (i:ℤ)) (w:ℤ) : ℤ) : ℝ)|

/-- The weight given to neighbour `j` when smoothing index `i`:
`gaussian(index_score, 1.0, 0.0, 1.0)` in `gaussian_smooth2d`. -/
def smoothWeight (w i j : ℕ) : ℝ := gaussian (indexScore i j w) 1 0 1

/-- The body of the `i`-loop of `gaussian_smooth2d`: the weighted average of
`data[start..=end]` in every dimension, where
`start = max(i-w, 0)` (computed via the `0 < i as i32 - w as i32` test) and
`end = min(i+w, datasize-1)`. -/
def smoothIdx (data : List (List ℝ)) (w i : ℕ) : List ℝ :=
  let n := data.length
  let d := (data.headD []).length
  let s := if w < i then i - w else 0
  let e := min (i + w) (n - 1)
  let idxs := List.range' s (e + 1 - s)
  let sumW := (idxs.map (fun j => smoothWeight w i j)).sum
  (List.range d).map (fun k =>
    (idxs.map (fun j => smoothWeight w i j * ((data.getD j []).getD k 0))).sum / sumW)

/-- The `i`-loop of `maths.rs::gaussian_smooth2d`, linearised over the list of
row indices, with its two exit paths in the source's execution order: at each
iteration the row's own dimension check runs first (`maths.rs:23`, modelled as
the dimension-mismatch error), and then the window sum reads
`data[j].as_ref()[n]` for every `n < dimensions` and every `j` in the clipped
window (`maths.rs:46`) — a read from a row *shorter* than `dimensions` is a
Rust index-out-of-bounds panic, modelled as the `"index out of bounds"`
error.  In particular a short row inside an earlier row's window panics
before its own dimension check is ever reached. -/
def smoothLoop (data : List (List ℝ)) (w : ℕ) : List ℕ → Except String (List (List ℝ))
  | [] => .ok []
  | i :: rest =>
    let d := (data.headD []).length
    let st := if w < i then i - w else 0
    let en := min (i + w) (data.length - 1)
    if (data.getD i []).length ≠ d then .error "all rows must have the same dimension"
    else if (List.range' st (en + 1 - st)).any
        (fun j => decide ((data.getD j []).length < d)) then
      .error "index out of bounds"
    else
      match smoothLoop data w rest with
      | .error e2 => .error e2
      | .ok out => .ok (smoothIdx data w i :: out)

/-- `maths.rs::gaussian_smooth2d`.  The error branches mirror the source in
execution order.  The `w = 0` branch models Rust's integer-division-by-zero
panic: when `w = 0` the first iteration of the `i`-loop (which always runs,
`data` being nonempty at that point; its row-dimension check cannot fail for
row 0, and the `(j - i) / w` score of the first window index is computed
before any row value is read) panics before any later row's dimension check
or window read is reached.  For `w ≠ 0` the loop is `smoothLoop` over all row
indices, which carries the per-iteration dimension-mismatch and
out-of-bounds-read exits. -/
def gaussian_smooth2d (data : List (List ℝ)) (w : ℕ) : Except String (List (List ℝ)) :=
  if data.length = 0 then .error "Empty data"
  else if (data.headD []).length = 0 then .error "dimension cannot be 0"
  else if w = 0 then .error "attempt to divide by zero"
  else smoothLoop data w (List.range data.length)

/-- `maths.rs::minmax_normalize`.  Faithful to the source's (buggy)
initialisation: the running minimum starts from `f64::MIN_POSITIVE` (the
`f64::MAX` store on the previous source line is immediately overwritten) and
the running maximum starts from the `0.0` the vector was filled with. -/
def minmax_normalize (data : List (List ℝ)) : Except String (List (List ℝ)) :=
  if data.length = 0 then .error "Empty data"
  else if (data.headD []).length = 0 then .error "dimension cannot be 0"
  else if data.any (fun row => decide (row.length ≠ (data.headD []).length)) then
    .error "all rows must have the same dimension"
  else
    let dims := (data.headD []).length
    let minD := fun d => data.foldl (fun m row => min m (row.getD d 0)) f64MINPOS
    let maxD := fun d => data.foldl (fun m row => max m (row.getD d 0)) 0
    .ok (data.map (fun row =>
      (List.range dims).map (fun d => (row.getD d 0 - minD d) / (maxD d - minD d))))

/-- `lib.rs::prepare`: smooth, normalize, and replace `y` by `y - x`
(steps 1-3 of the paper). -/
def prepare (data : List (List ℝ)) (w : ℕ) : Except String (List (List ℝ)) :=
  match gaussian_smooth2d data w with
  | .error e => .error e
  | .ok sm =>
    match minmax_normalize sm with
    | .error e => .error e
    | .ok nd => .ok (nd.map (fun row => row.set 1 (row.getD 1 0 - row.getD 0 0)))

/-- `lib.rs::compute_average_variance`: the mean of consecutive differences of
column 0. -/
def compute_average_variance (data : List (List ℝ)) : ℝ :=
  ((List.range (data.length - 1)).map
    (fun i => (data.getD (i + 1) []).getD 0 0 - (data.getD i []).getD 0 0)).sum
    / ((data.length - 1 : ℕ) : ℝ)

/-- The candidacy test of `lib.rs::find_candidate_indices` at interior index
`i`, as a proposition on the Rust boolean
`(find_minima && prev > cur && next > cur) || (!find_minima && prev < cur && next < cur)`. -/
def candPred (data : List (List ℝ)) (find_minima : Bool) (i : ℕ) : Prop :=
  (find_minima = true ∧ (data.getD (i - 1) []).getD 1 0 > (data.getD i []).getD 1 0
      ∧ (data.getD (i + 1) []).getD 1 0 > (data.getD i []).getD 1 0)
  ∨ (find_minima = false ∧ (data.getD (i - 1) []).getD 1 0 < (data.getD i []).getD 1 0
      ∧ (data.getD (i + 1) []).getD 1 0 < (data.getD i []).getD 1 0)

instance candPredDec (data : List (List ℝ)) (fm : Bool) (i : ℕ) :
    Decidable (candPred data fm i) := by
  unfold candPred; infer_instance

/-- `lib.rs::find_candidate_indices`: the interior indices `1 ≤ i ≤ rows - 2`
satisfying the candidacy test, in loop (ascending) order.  The Rust loop is
`for i in 1..(rows - 1)`; for `rows = 0` the Rust subtraction `rows - 1`
panics in debug builds (the callers in this repository only reach it with
nonempty data), so the model is only appealed to for `rows ≥ 1`. -/
def find_candidate_indices (data : List (List ℝ)) (find_minima : Bool) : List ℕ :=
  (List.range' 1 (data.length - 1 - 1)).filter (fun i => decide (candPred data find_minima i))

/-- `lib.rs::flip_x`: mirror `x` about the running maximum (seeded with
`f64::MIN`) and reverse the point order. -/
def flip_x (data : List (List ℝ)) : List (List ℝ) :=
  let xmax := data.foldl (fun m row => max m (row.getD 0 0)) f64MIN
  data.reverse.map (fun row => [xmax - row.getD 0 0, row.getD 1 0])

/-- The step used by `lib.rs::kneedle` (lines 109-117):
`compute_average_variance` scaled by `s` when `find_elbow` and by `-s`
otherwise. -/
def kneedleStep (nd : List (List ℝ)) (s : ℤ) (find_elbow : Bool) : ℝ :=
  if find_elbow then compute_average_variance nd * (s : ℝ)
  else compute_average_variance nd * (-(s : ℝ))

/-- The confirmation test of the inner `j`-loop of `kneedle`:
`(find_elbow && nd[j][1] > threshold) || (!find_elbow && nd[j][1] < threshold)`. -/
def confirmAt (nd : List (List ℝ)) (threshold : ℝ) (find_elbow : Bool) (j : ℕ) : Prop :=
  (find_elbow = true ∧ (nd.getD j []).getD 1 0 > threshold)
  ∨ (find_elbow = false ∧ (nd.getD j []).getD 1 0 < threshold)

instance confirmAtDec (nd : List (List ℝ)) (t : ℝ) (fe : Bool) (j : ℕ) :
    Decidable (confirmAt nd t fe j) := by
  unfold confirmAt; infer_instance

/-- The candidate-confirmation loop of `kneedle` (step 6 of the paper): each
candidate `c` is kept iff some index in `(c+1)..end` passes the confirmation
test, where `end` is the next candidate (or `datasize`); a kept candidate
contributes the original row `data[c]`. -/
def confirmCands (data nd : List (List ℝ)) (step : ℝ) (fe : Bool) (datasize : ℕ) :
    List ℕ → List (List ℝ)
  | [] => []
  | c :: rest =>
    let e := match rest with | [] => datasize | c2 :: _ => c2
    let threshold := (nd.getD c []).getD 1 0 + step
    (if (List.range' (c + 1) (e - (c + 1))).any
        (fun j => decide (confirmAt nd threshold fe j)) then [data.getD c []] else [])
      ++ confirmCands data nd step fe datasize rest

/-- `lib.rs::kneedle`, the top-level detection function. -/
def kneedle (data : List (List ℝ)) (s : ℤ) (w : ℕ) (find_elbow : Bool) :
    Except String (List (List ℝ)) :=
  if data.length = 0 then .error "Empty data"
  else if (data.headD []).length ≠ 2 then .error "all data should be 2 dimensional"
  else
    match prepare data w with
    | .error e => .error e
    | .ok nd =>
      .ok (confirmCands data nd (kneedleStep nd s find_elbow) find_elbow data.length
        (find_candidate_indices nd find_elbow))

/-- `exp(-1/2)`, the Gaussian weight of an index-distance-1 neighbour at
smoothing window 1. -/
def eH : ℝ := Real.exp (-(1/2 : ℝ))

/-- The 10-point golden test curve of `lib.rs::tests::it_works`. -/
def data10 : List (List ℝ) :=
  [[0, 0], [0.1, 0.55], [0.2, 0.75], [0.35, 0.825], [0.45, 0.875], [0.55, 0.9],
   [0.675, 0.925], [0.775, 0.95], [0.875, 0.975], [1, 1]]

/-- Smoothed value of `data10` at index 0, dimension x. -/
def s0x : ℝ := (0 + 0.1 * eH) / (1 + eH)

/-- Smoothed value of `data10` at index 1, dimension x. -/
def s1x : ℝ := (0.1 + 0.2 * eH) / (1 + 2 * eH)

/-- Smoothed value of `data10` at index 2, dimension x. -/
def s2x : ℝ := (0.2 + 0.45 * eH) / (1 + 2 * eH)

/-- Smoothed value of `data10` at index 3, dimension x. -/
def s3x : ℝ := (0.35 + 0.65 * eH) / (1 + 2 * eH)

/-- Smoothed value of `data10` at index 4, dimension x. -/
def s4x : ℝ := (0.45 + 0.9 * eH) / (1 + 2 * eH)

/-- Smoothed value of `data10` at index 5, dimension x. -/
def s5x : ℝ := (0.55 + 1.125 * eH) / (1 + 2 * eH)

/-- Smoothed value of `data10` at index 6, dimension x. -/
def s6x : ℝ := (0.675 + 1.325 * eH) / (1 + 2 * eH)

/-- Smoothed value of `data10` at index 7, dimension x. -/
def s7x : ℝ := (0.775 + 1.55 * eH) / (1 + 2 * eH)

/-- Smoothed value of `data10` at index 8, dimension x. -/
def s8x : ℝ := (0.875 + 1.775 * eH) / (1 + 2 * eH)

/-- Smoothed value of `data10` at index 9, dimension x. -/
def s9x : ℝ := (1 + 0.875 * eH) / (1 + eH)

/-- Smoothed value of `data10` at index 0, dimension y. -/
def s0y : ℝ := (0 + 0.55 * eH) / (1 + eH)

/-- Smoothed value of `data10` at index 1, dimension y. -/
def s1y : ℝ := (0.55 + 0.75 * eH) / (1 + 2 * eH)

/-- Smoothed value of `data10` at index 2, dimension y. -/
def s2y : ℝ := (0.75 + 1.375 * eH) / (1 + 2 * eH)

/-- Smoothed value of `data10` at index 3, dimension y. -/
def s3y : ℝ := (0.825 + 1.625 * eH) / (1 + 2 * eH)

/-- Smoothed value of `data10` at index 4, dimension y. -/
def s4y : ℝ := (0.875 + 1.725 * eH) / (1 + 2 * eH)

/-- Smoothed value of `data10` at index 5, dimension y. -/
def s5y : ℝ := (0.9 + 1.8 * eH) / (1 + 2 * eH)

/-- Smoothed value of `data10` at index 6, dimension y. -/
def s6y : ℝ := (0.925 + 1.85 * eH) / (1 + 2 * eH)

/-- Smoothed value of `data10` at index 7, dimension y. -/
def s7y : ℝ := (0.95 + 1.9 * eH) / (1 + 2 * eH)

/-- Smoothed value of `data10` at index 8, dimension y. -/
def s8y : ℝ := (0.975 + 1.95 * eH) / (1 + 2 * eH)

/-- Smoothed value of `data10` at index 9, dimension y. -/
def s9y : ℝ := (1 + 0.975 * eH) / (1 + eH)

/-- The Gaussian-smoothed golden curve (window 1). -/
def smData : List (List ℝ) :=
  [[s0x, s0y], [s1x, s1y], [s2x, s2y], [s3x, s3y], [s4x, s4y],
   [s5x, s5y], [s6x, s6y], [s7x, s7y], [s8x, s8y], [s9x, s9y]]

/-- Normalized smoothed value at index 0, dimension x (seeded min/max). -/
def nx0 : ℝ := (s0x - f64MINPOS) / (s9x - f64MINPOS)

/-- Normalized smoothed value at index 1, dimension x (seeded min/max). -/
def nx1 : ℝ := (s1x - f64MINPOS) / (s9x - f64MINPOS)

/-- Normalized smoothed value at index 2, dimension x (seeded min/max). -/
def nx2 : ℝ := (s2x - f64MINPOS) / (s9x - f64MINPOS)

/-- Normalized smoothed value at index 3, dimension x (seeded min/max). -/
def nx3 : ℝ := (s3x - f64MINPOS) / (s9x - f64MINPOS)

/-- Normalized smoothed value at index 4, dimension x (seeded min/max). -/
def nx4 : ℝ := (s4x - f64MINPOS) / (s9x - f64MINPOS)

/-- Normalized smoothed value at index 5, dimension x (seeded min/max). -/
def nx5 : ℝ := (s5x - f64MINPOS) / (s9x - f64MINPOS)

/-- Normalized smoothed value at index 6, dimension x (seeded min/max). -/
def nx6 : ℝ := (s6x - f64MINPOS) / (s9x - f64MINPOS)

/-- Normalized smoothed value at index 7, dimension x (seeded min/max). -/
def nx7 : ℝ := (s7x - f64MINPOS) / (s9x - f64MINPOS)

/-- Normalized smoothed value at index 8, dimension x (seeded min/max). -/
def nx8 : ℝ := (s8x - f64MINPOS) / (s9x - f64MINPOS)

/-- Normalized smoothed value at index 9, dimension x (seeded min/max). -/
def nx9 : ℝ := (s9x - f64MINPOS) / (s9x - f64MINPOS)

/-- Normalized smoothed value at index 0, dimension y (seeded min/max). -/
def ny0 : ℝ := (s0y - f64MINPOS) / (s9y - f64MINPOS)

/-- Normalized smoothed value at index 1, dimension y (seeded min/max). -/
def ny1 : ℝ := (s1y - f64MINPOS) / (s9y - f64MINPOS)

/-- Normalized smoothed value at index 2, dimension y (seeded min/max). -/
def ny2 : ℝ := (s2y - f64MINPOS) / (s9y - f64MINPOS)

/-- Normalized smoothed value at index 3, dimension y (seeded min/max). -/
def ny3 : ℝ := (s3y - f64MINPOS) / (s9y - f64MINPOS)

/-- Normalized smoothed value at index 4, dimension y (seeded min/max). -/
def ny4 : ℝ := (s4y - f64MINPOS) / (s9y - f64MINPOS)

/-- Normalized smoothed value at index 5, dimension y (seeded min/max). -/
def ny5 : ℝ := (s5y - f64MINPOS) / (s9y - f64MINPOS)

/-- Normalized smoothed value at index 6, dimension y (seeded min/max). -/
def ny6 : ℝ := (s6y - f64MINPOS) / (s9y - f64MINPOS)

/-- Normalized smoothed value at index 7, dimension y (seeded min/max). -/
def ny7 : ℝ := (s7y - f64MINPOS) / (s9y - f64MINPOS)

/-- Normalized smoothed value at index 8, dimension y (seeded min/max). -/
def ny8 : ℝ := (s8y - f64MINPOS) / (s9y - f64MINPOS)

/-- Normalized smoothed value at index 9, dimension y (seeded min/max). -/
def ny9 : ℝ := (s9y - f64MINPOS) / (s9y - f64MINPOS)

/-- The min-max normalized golden curve. -/
def nmData : List (List ℝ) :=
  [[nx0, ny0], [nx1, ny1], [nx2, ny2], [nx3, ny3], [nx4, ny4],
   [nx5, ny5], [nx6, ny6], [nx7, ny7], [nx8, ny8], [nx9, ny9]]

/-- The prepared golden curve: `y` replaced by the difference `y - x`. -/
def ndData : List (List ℝ) :=
  [[nx0, ny0 - nx0], [nx1, ny1 - nx1], [nx2, ny2 - nx2], [nx3, ny3 - nx3],
   [nx4, ny4 - nx4], [nx5, ny5 - nx5], [nx6, ny6 - nx6], [nx7, ny7 - nx7],
   [nx8, ny8 - nx8], [nx9, ny9 - nx9]]

/-! ## Helper lemmas -/

theorem getD1_pair (a b : ℝ) : ([a, b] : List ℝ).getD 1 0 = b := rfl


theorem f64MINPOS_pos : 0 < f64MINPOS := by
  unfold f64MINPOS; positivity

theorem f64MINPOS_small : f64MINPOS < 0.000001 := by
  unfold f64MINPOS
  rw [inv_lt_iff_one_lt_mul₀ (by positivity)]
  calc (1:ℝ) < 0.000001 * 2 ^ (20:ℕ) := by norm_num
    _ ≤ 0.000001 * 2 ^ (1022:ℕ) := by
        have h2 : ((2:ℝ) ^ (20:ℕ)) ≤ 2 ^ (1022:ℕ) := by
          apply pow_le_pow_right₀ (by norm_num) (by norm_num)
        nlinarith

theorem foldl_min_eq_init (g : List ℝ → ℝ) :
    ∀ (l : List (List ℝ)) (a : ℝ), (∀ r ∈ l, a ≤ g r) →
      l.foldl (fun m r => min m (g r)) a = a := by
  intro l
  induction l with
  | nil => intro a _; rfl
  | cons r t ih =>
    intro a h
    simp only [List.foldl_cons]
    rw [min_eq_left (h r (by simp))]
    exact ih a (fun x hx => h x (by simp [hx]))

theorem foldl_max_eq_mem (g : List ℝ → ℝ) :
    ∀ (l : List (List ℝ)) (a M : ℝ), (∀ r ∈ l, g r ≤ M) → a ≤ M →
      (a = M ∨ ∃ r ∈ l, g r = M) →
      l.foldl (fun m r => max m (g r)) a = M := by
  intro l
  induction l with
  | nil =>
    intro a M _ _ hat
    rcases hat with h | ⟨r, hr, _⟩
    · exact h
    · cases hr
  | cons r t ih =>
    intro a M hub ha hat
    simp only [List.foldl_cons]
    rcases hat with rfl | ⟨r2, hr2, heq⟩
    · rw [max_eq_left (hub r (by simp))]
      exact ih a a (fun x hx => hub x (by simp [hx])) le_rfl (Or.inl rfl)
    · rcases List.mem_cons.mp hr2 with rfl | hmem
      · rw [max_eq_right (heq ▸ ha)]
        exact ih _ M (fun x hx => hub x (by simp [hx])) (le_of_eq heq) (Or.inl heq)
      · refine ih _ M (fun x hx => hub x (by simp [hx])) (max_le ha (hub r (by simp)))
          (Or.inr ⟨r2, hmem, heq⟩)

/-! ## C2: sign of the sensitivity step -/

/-- C2 counterexample: on the difference curve `[[0,0],[2,0]]` with
sensitivity 1 the average step is `2`, yet in the knee search
(`find_elbow = false`, i.e. `seek_knee`) the step used by `kneedle` is `-2`,
not `average_step * (+sensitivity) = 2` as the claim states. -/
theorem step_sign_cex :
    compute_average_variance [[(0:ℝ),0],[2,0]] = 2 ∧
    kneedleStep [[(0:ℝ),0],[2,0]] 1 false = -2 ∧
    kneedleStep [[(0:ℝ),0],[2,0]] 1 false ≠
      compute_average_variance [[(0:ℝ),0],[2,0]] * ((1:ℤ):ℝ) := by
  have h : compute_average_variance [[(0:ℝ),0],[2,0]] = 2 := by
    unfold compute_average_variance
    rw [show ([[(0:ℝ),0],[2,0]].length - 1) = 1 from rfl, List.range_succ]
    simp [List.getD]
  refine ⟨h, by simp [kneedleStep, h], ?_⟩
  simp [kneedleStep, h]
  norm_num

/-- C2 amended: the step is `average_step * (+sensitivity)` when
`find_elbow = true` (elbow search) and `average_step * (-sensitivity)` when
`find_elbow = false` (knee search) — the signs are the mirror image of the
claim's. -/
theorem step_sign_amended (nd : List (List ℝ)) (s : ℤ) :
    kneedleStep nd s true = compute_average_variance nd * (s:ℝ) ∧
    kneedleStep nd s false = compute_average_variance nd * (-(s:ℝ)) := by
  constructor <;> simp [kneedleStep]

/-! ## C4: the smoothing score uses integer division -/

/-- C4: for window `w = 2` and index distance `|j - i| = 1` the source
computes the score with Rust `i32` (truncating) division, so the score is
`0`, not the exact ratio `0.5` the claim requires; the corresponding Gaussian
weight is `exp 0 = 1`. -/
theorem score_truncated_cex :
    indexScore 0 1 2 = 0 ∧ indexScore 0 1 2 ≠ 1 / 2 ∧ smoothWeight 2 0 1 = 1 := by
  have h : indexScore 0 1 2 = 0 := by
    unfold indexScore
    rw [show Int.tdiv ((1:ℕ) - (0:ℕ) : ℤ) ((2:ℕ):ℤ) = 0 from by decide]
    norm_num
  refine ⟨h, by rw [h]; norm_num, ?_⟩
  unfold smoothWeight gaussian
  rw [h]
  norm_num

/-! ## C5: smoothing with window 0 panics -/

/-- C5: calling the smoother with `window = 0` on a nonempty well-formed
curve is not the identity transform: the score computation divides by the
window, and Rust `i32` division by zero panics (modelled as the
division-by-zero error), so no curve is returned at all. -/
theorem smooth_window_zero_cex :
    gaussian_smooth2d [[(0:ℝ),0],[1,1]] 0 = .error "attempt to divide by zero" ∧
    gaussian_smooth2d [[(0:ℝ),0],[1,1]] 0 ≠ .ok [[(0:ℝ),0],[1,1]] := by
  constructor
  · simp [gaussian_smooth2d]
  · simp [gaussian_smooth2d]

/-! ## C7: flip_x composed with itself -/

theorem foldl_max_ge (g : List ℝ → ℝ) :
    ∀ (l : List (List ℝ)) (a : ℝ), a ≤ l.foldl (fun m r => max m (g r)) a := by
  intro l
  induction l with
  | nil => intro a; exact le_rfl
  | cons r t ih =>
    intro a
    exact le_trans (le_max_left a (g r)) (ih (max a (g r)))

theorem foldl_max_mem_le (g : List ℝ → ℝ) :
    ∀ (l : List (List ℝ)) (a : ℝ) (r : List ℝ), r ∈ l →
      g r ≤ l.foldl (fun m r => max m (g r)) a := by
  intro l
  induction l with
  | nil => intro a r hr; cases hr
  | cons x t ih =>
    intro a r hr
    rcases List.mem_cons.mp hr with rfl | hmem
    · exact le_trans (le_max_right a (g r)) (foldl_max_ge g t (max a (g r)))
    · exact ih (max a (g x)) r hmem

/-- C7 counterexample: on the one-point curve `[(1,2)]` applying `flip_x`
twice yields x-value `0`, not the original `1` — `flip_x ∘ flip_x` translates
x by the negated minimum x, so it is not the identity on x in general. -/
theorem flip_x_twice_cex :
    (flip_x (flip_x [[(1:ℝ),2]])).map (fun r => r.getD 0 0) ≠
      [[(1:ℝ),2]].map (fun r => r.getD 0 0) := by
  have h : max f64MIN (1:ℝ) = 1 := max_eq_right (by norm_num [f64MIN])
  have h0 : max f64MIN (0:ℝ) = 0 := max_eq_right (by norm_num [f64MIN])
  simp [flip_x, List.getD, h, h0]

/-- C7 amended: for every nonempty curve whose x-values are nonnegative with
minimum x-value `0`, `flip_x` composed with itself preserves the x-value at
every position (the two reversals cancel and the mirror constant of the
second flip is again the maximum x). -/
theorem flip_x_eq (data : List (List ℝ)) :
    flip_x data = data.reverse.map (fun row =>
      [data.foldl (fun m row => max m (row.getD 0 0)) f64MIN - row.getD 0 0,
        row.getD 1 0]) := rfl

theorem flip_x_twice_id (data : List (List ℝ))
    (hnn : ∀ r ∈ data, 0 ≤ r.getD 0 0) (hz : ∃ r ∈ data, r.getD 0 0 = 0) :
    (flip_x (flip_x data)).map (fun r => r.getD 0 0) =
      data.map (fun r => r.getD 0 0) := by
  obtain ⟨r0, hr0, hx0⟩ := hz
  set M : ℝ := data.foldl (fun m row => max m (row.getD 0 0)) f64MIN with hM
  have hub : ∀ r ∈ data, r.getD 0 0 ≤ M :=
    fun r hr => foldl_max_mem_le (fun r => r.getD 0 0) data f64MIN r hr
  have hMmin : f64MIN ≤ M := foldl_max_ge (fun r => r.getD 0 0) data f64MIN
  have hM0 : 0 ≤ M := hx0 ▸ hub r0 hr0
  have hflip1 : flip_x data = data.reverse.map (fun row =>
      [M - row.getD 0 0, row.getD 1 0]) := flip_x_eq data
  have hub2 : ∀ r ∈ flip_x data, r.getD 0 0 ≤ M := by
    intro r hr
    rw [hflip1] at hr
    obtain ⟨row, hrow, rfl⟩ := List.mem_map.mp hr
    have h0 : 0 ≤ row.getD 0 0 := hnn row (List.mem_reverse.mp hrow)
    rw [List.getD_cons_zero]
    linarith
  have hmem2 : ∃ r ∈ flip_x data, r.getD 0 0 = M := by
    refine ⟨[M - r0.getD 0 0, r0.getD 1 0], ?_, ?_⟩
    · rw [hflip1]
      exact List.mem_map.mpr ⟨r0, List.mem_reverse.mpr hr0, rfl⟩
    · rw [List.getD_cons_zero, hx0]
      ring
  have hM2 : (flip_x data).foldl (fun m row => max m (row.getD 0 0)) f64MIN = M :=
    foldl_max_eq_mem (fun r => r.getD 0 0) (flip_x data) f64MIN M hub2 hMmin (Or.inr hmem2)
  have hflip2 : flip_x (flip_x data) = (flip_x data).reverse.map (fun row =>
      [M - row.getD 0 0, row.getD 1 0]) := by
    rw [flip_x_eq (flip_x data), hM2]
  rw [hflip2, hflip1]
  simp only [List.map_reverse, List.reverse_reverse, List.map_map]
  apply List.map_congr_left
  intro r hr
  simp only [Function.comp_apply, List.getD_cons_zero]
  ring

/-- C7 amended witness: on the concrete curve `[(0,1),(2,3)]` (minimum x is
`0`) the double flip preserves the x-values. -/
theorem flip_x_twice_id_witness :
    (flip_x (flip_x [[(0:ℝ),1],[2,3]])).map (fun r => r.getD 0 0) =
      [[(0:ℝ),1],[2,3]].map (fun r => r.getD 0 0) :=
  flip_x_twice_id [[(0:ℝ),1],[2,3]]
    (by intro r hr; simp at hr; rcases hr with rfl | rfl <;> norm_num [List.getD])
    ⟨[0,1], by simp, by norm_num [List.getD]⟩

/-! ## C6: exact characterisation of the candidate extractor -/

/-- C6: for a nonempty difference curve, `find_candidate_indices` returns
exactly the interior indices `1 ≤ i ≤ n-2` that are strict local minima of
column 1 (when `find_minima`) resp. strict local maxima (otherwise), in
ascending index order, and never an index whose value ties an adjacent
neighbour. -/
theorem find_candidates_exact (data : List (List ℝ)) (fm : Bool)
    (hne : 1 ≤ data.length) :
    (∀ i, i ∈ find_candidate_indices data fm ↔
      (1 ≤ i ∧ i + 1 < data.length ∧
        ((fm = true ∧ (data.getD (i - 1) []).getD 1 0 > (data.getD i []).getD 1 0
            ∧ (data.getD (i + 1) []).getD 1 0 > (data.getD i []).getD 1 0)
        ∨ (fm = false ∧ (data.getD (i - 1) []).getD 1 0 < (data.getD i []).getD 1 0
            ∧ (data.getD (i + 1) []).getD 1 0 < (data.getD i []).getD 1 0)))) ∧
    (find_candidate_indices data fm).Pairwise (· < ·) ∧
    (∀ i ∈ find_candidate_indices data fm,
      (data.getD (i - 1) []).getD 1 0 ≠ (data.getD i []).getD 1 0 ∧
      (data.getD (i + 1) []).getD 1 0 ≠ (data.getD i []).getD 1 0) := by
  have hchar : ∀ i, i ∈ find_candidate_indices data fm ↔
      (1 ≤ i ∧ i + 1 < data.length ∧ candPred data fm i) := by
    intro i
    unfold find_candidate_indices
    rw [List.mem_filter, List.mem_range'_1, decide_eq_true_eq]
    constructor
    · rintro ⟨⟨h1, h2⟩, hp⟩
      exact ⟨h1, by omega, hp⟩
    · rintro ⟨h1, h2, hp⟩
      exact ⟨⟨h1, by omega⟩, hp⟩
  refine ⟨fun i => (hchar i).trans (by rw [candPred]), ?_, ?_⟩
  · exact (List.pairwise_lt_range' 1 (data.length - 1 - 1)).sublist
      (List.filter_sublist _)
  · intro i hi
    obtain ⟨-, -, hp⟩ := (hchar i).mp hi
    rcases hp with ⟨-, h1, h2⟩ | ⟨-, h1, h2⟩
    · exact ⟨ne_of_gt h1, ne_of_gt h2⟩
    · exact ⟨ne_of_lt h1, ne_of_lt h2⟩

/-- C6 witness: on the concrete difference curve with column-1 values
`5, 1, 7`, index `1` is a strict local minimum and is returned. -/
theorem find_candidates_exact_witness :
    1 ∈ find_candidate_indices [[(0:ℝ),5],[1,1],[2,7]] true :=
  ((find_candidates_exact [[(0:ℝ),5],[1,1],[2,7]] true (by norm_num)).1 1).mpr
    ⟨le_rfl, by norm_num, Or.inl ⟨rfl, by norm_num [List.getD], by norm_num [List.getD]⟩⟩

/-! ## The smoothing loop and length preservation through the pipeline -/

theorem getD_mem {α : Type} (l : List α) (d : α) (j : ℕ) (h : j < l.length) :
    l.getD j d ∈ l := by
  rw [List.getD_eq_getElem?_getD, List.getElem?_eq_getElem h]
  simp only [Option.getD_some]
  exact List.getElem_mem h

theorem smoothLoop_length {data : List (List ℝ)} {w : ℕ} :
    ∀ {is : List ℕ} {r : List (List ℝ)},
      smoothLoop data w is = .ok r → r.length = is.length := by
  intro is
  induction is with
  | nil =>
    intro r h
    injection h with h
    rw [← h]
    rfl
  | cons i rest ih =>
    intro r h
    simp only [smoothLoop] at h
    split_ifs at h
    all_goals
      cases hrec : smoothLoop data w rest with
      | error e2 =>
        simp only [hrec] at h
        exact Except.noConfusion h
      | ok out =>
        simp only [hrec] at h
        injection h with h
        rw [← h]
        simp [ih hrec]

theorem smoothLoop_no_oob (data : List (List ℝ)) (w i : ℕ) (hin : i < data.length)
    (hge : ∀ row ∈ data, (data.headD []).length ≤ row.length) :
    ¬(((List.range' (if w < i then i - w else 0)
        (min (i + w) (data.length - 1) + 1 - (if w < i then i - w else 0))).any
        (fun j => decide ((data.getD j []).length < (data.headD []).length))) = true) := by
  rintro hx
  obtain ⟨j, hj, hdec⟩ := List.any_eq_true.mp hx
  rw [decide_eq_true_eq] at hdec
  have h1 := List.mem_range'_1.mp hj
  have hminle : min (i + w) (data.length - 1) ≤ data.length - 1 := min_le_right _ _
  have hs : (if w < i then i - w else 0) ≤ i := by split_ifs <;> omega
  have hie : i ≤ min (i + w) (data.length - 1) := le_min (by omega) (by omega)
  have hjlt : j < data.length := by omega
  exact absurd hdec (not_lt.mpr (hge _ (getD_mem data [] j hjlt)))

theorem smoothLoop_ok (data : List (List ℝ)) (w : ℕ)
    (hrows : ∀ row ∈ data, row.length = (data.headD []).length) :
    ∀ is : List ℕ, (∀ i ∈ is, i < data.length) →
      smoothLoop data w is = .ok (is.map (fun i => smoothIdx data w i)) := by
  intro is
  induction is with
  | nil => intro _; rfl
  | cons i rest ih =>
    intro his
    have hin : i < data.length := his i (by simp)
    have hge : ∀ row ∈ data, (data.headD []).length ≤ row.length :=
      fun row hr => le_of_eq (hrows row hr).symm
    simp only [smoothLoop]
    rw [if_neg (not_ne_iff.mpr (hrows _ (getD_mem data [] i hin))),
      if_neg (smoothLoop_no_oob data w i hin hge),
      ih (fun j hj => his j (by simp [hj]))]
    rfl

theorem smoothLoop_mismatch (data : List (List ℝ)) (w : ℕ)
    (hge : ∀ row ∈ data, (data.headD []).length ≤ row.length) :
    ∀ is : List ℕ, (∀ i ∈ is, i < data.length) →
      (∃ i ∈ is, (data.getD i []).length ≠ (data.headD []).length) →
      smoothLoop data w is = .error "all rows must have the same dimension" := by
  intro is
  induction is with
  | nil =>
    rintro _ ⟨i, hi, -⟩
    cases hi
  | cons i rest ih =>
    intro his hbad
    have hin : i < data.length := his i (by simp)
    simp only [smoothLoop]
    by_cases h1 : (data.getD i []).length ≠ (data.headD []).length
    · rw [if_pos h1]
    · rw [if_neg h1, if_neg (smoothLoop_no_oob data w i hin hge)]
      have hrec : smoothLoop data w rest = .error "all rows must have the same dimension" := by
        apply ih (fun j hj => his j (by simp [hj]))
        rcases hbad with ⟨j, hj, hne⟩
        rcases List.mem_cons.mp hj with rfl | hjr
        · exact absurd hne h1
        · exact ⟨j, hjr, hne⟩
      rw [hrec]

theorem gaussian_smooth2d_length {data : List (List ℝ)} {w : ℕ} {r : List (List ℝ)}
    (h : gaussian_smooth2d data w = .ok r) : r.length = data.length := by
  unfold gaussian_smooth2d at h
  split_ifs at h
  exact (smoothLoop_length h).trans (List.length_range _)

theorem minmax_normalize_length {l r : List (List ℝ)}
    (h : minmax_normalize l = .ok r) : r.length = l.length := by
  unfold minmax_normalize at h
  split_ifs at h
  all_goals first
    | exact Except.noConfusion h
    | (injection h with h; rw [← h]; simp)

theorem prepare_length {data : List (List ℝ)} {w : ℕ} {nd : List (List ℝ)}
    (h : prepare data w = .ok nd) : nd.length = data.length := by
  unfold prepare at h
  cases hg : gaussian_smooth2d data w with
  | error e =>
    simp only [hg] at h
    exact Except.noConfusion h
  | ok sm =>
    simp only [hg] at h
    cases hn : minmax_normalize sm with
    | error e =>
      simp only [hn] at h
      exact Except.noConfusion h
    | ok nd2 =>
      simp only [hn] at h
      injection h with h
      subst h
      rw [List.length_map, minmax_normalize_length hn, gaussian_smooth2d_length hg]

/-! ## C9: behaviour on curves of fewer than 3 points -/

/-- C9: the empty curve is rejected with the empty-input error before any
transform runs, and every 1- or 2-point curve either errors out or returns
successfully with no knee/elbow points (the candidate loop over interior
indices is empty). -/
theorem kneedle_small (data : List (List ℝ)) (s : ℤ) (w : ℕ) (fe : Bool)
    (h : data.length ≤ 2) :
    if data.length = 0 then kneedle data s w fe = .error "Empty data"
    else (∃ e, kneedle data s w fe = .error e) ∨ kneedle data s w fe = .ok [] := by
  by_cases h0 : data.length = 0
  · rw [if_pos h0]
    unfold kneedle
    rw [if_pos h0]
  · rw [if_neg h0]
    unfold kneedle
    rw [if_neg h0]
    by_cases hd : (data.headD []).length ≠ 2
    · rw [if_pos hd]
      exact Or.inl ⟨_, rfl⟩
    · rw [if_neg hd]
      cases hp : prepare data w with
      | error e => exact Or.inl ⟨e, rfl⟩
      | ok nd =>
        right
        simp only [hp]
        have hlen : nd.length = data.length := prepare_length hp
        have hcand : find_candidate_indices nd fe = [] := by
          unfold find_candidate_indices
          rw [show nd.length - 1 - 1 = 0 by omega]
          rfl
        rw [hcand]
        rfl

/-- C9 witness: the concrete 1-point curve `[(5,7)]` yields an error or an
empty result. -/
theorem kneedle_small_witness :
    (∃ e, kneedle [[(5:ℝ),7]] 1 1 false = .error e) ∨
      kneedle [[(5:ℝ),7]] 1 1 false = .ok [] := by
  simpa using kneedle_small [[(5:ℝ),7]] 1 1 false (by norm_num)

/-! ## C10: the 2-D check only inspects the first row -/

/-- C10 counterexample: with smoothing window `0` a curve whose first row is
2-dimensional and whose second row is not does not produce the
dimension-mismatch error — the smoother's division-by-zero panic (modelled as
its error) happens on row 0 before the mismatching row is ever checked. -/
theorem kneedle_first_row_cex :
    kneedle [[(0:ℝ),0],[1,1,1]] 1 0 false ≠
      .error "all rows must have the same dimension" := by
  have hev : kneedle [[(0:ℝ),0],[1,1,1]] 1 0 false = .error "attempt to divide by zero" := by
    unfold kneedle
    rw [if_neg (by norm_num), if_neg (by norm_num)]
    have hsm : gaussian_smooth2d [[(0:ℝ),0],[1,1,1]] 0 = .error "attempt to divide by zero" := by
      unfold gaussian_smooth2d
      rw [if_neg (by norm_num), if_neg (by norm_num), if_pos rfl]
    have hprep : prepare [[(0:ℝ),0],[1,1,1]] 0 = .error "attempt to divide by zero" := by
      unfold prepare
      simp only [hsm]
    simp only [hprep]
  rw [hev]
  intro hcontra
  injection hcontra with hs
  exact absurd hs (by decide)

/-- Supporting evaluation: with window 1, a mismatched later row *shorter*
than 2 components (here `[1.0]`) is read out of bounds by row 0's window
before its own dimension check runs, so the smoother panics (modelled as the
`"index out of bounds"` error) and the dimension-mismatch error is never
returned. -/
theorem kneedle_short_row_eval :
    kneedle [[(0:ℝ),0],[1]] 1 1 false = .error "index out of bounds" := rfl

/-- C10 amended: for every smoothing window `≥ 1`, an input whose first row
has exactly 2 components, in which some row has a different component count
but every row has at least 2 components (so every mismatched row is longer),
makes `kneedle` return the dimension-mismatch error raised inside the
smoother — the top-level 2-D check looks only at the first row, so its own
error is never produced for such inputs.  The restriction to longer rows is
forced by the source: a mismatched row shorter than 2 components is read out
of bounds by an earlier row's window and panics before its check
(`kneedle_short_row_eval`), and window 0 panics on a division by zero
(`kneedle_first_row_cex`). -/
theorem kneedle_first_row_only (data : List (List ℝ)) (s : ℤ) (w : ℕ) (fe : Bool)
    (h2 : (data.headD []).length = 2) (hbad : ∃ row ∈ data, row.length ≠ 2)
    (hge : ∀ row ∈ data, 2 ≤ row.length) (hw : w ≠ 0) :
    kneedle data s w fe = .error "all rows must have the same dimension" := by
  obtain ⟨row, hrow, hlen⟩ := hbad
  have h0 : data.length ≠ 0 := by
    intro h
    rw [List.length_eq_zero] at h
    subst h
    cases hrow
  obtain ⟨b, hb, hbrow⟩ := List.getElem_of_mem hrow
  have hgetb : data.getD b [] = row := by
    rw [List.getD_eq_getElem?_getD, List.getElem?_eq_getElem hb]
    simp only [Option.getD_some]
    exact hbrow
  have hsm : gaussian_smooth2d data w = .error "all rows must have the same dimension" := by
    unfold gaussian_smooth2d
    rw [if_neg h0, if_neg (by rw [h2]; norm_num), if_neg hw]
    exact smoothLoop_mismatch data w (by rw [h2]; exact hge) (List.range data.length)
      (fun i hi => List.mem_range.mp hi)
      ⟨b, List.mem_range.mpr hb, by rw [hgetb, h2]; exact hlen⟩
  have hprep : prepare data w = .error "all rows must have the same dimension" := by
    unfold prepare
    simp only [hsm]
  unfold kneedle
  rw [if_neg h0, if_neg (by rw [h2]; norm_num)]
  simp only [hprep]

/-- C10 amended witness: the concrete input `[[0,0],[1,1,1]]` (mismatched row
longer than 2 components) with window `1` produces the smoother's
dimension-mismatch error. -/
theorem kneedle_first_row_only_witness :
    kneedle [[(0:ℝ),0],[1,1,1]] 1 1 false = .error "all rows must have the same dimension" :=
  kneedle_first_row_only [[(0:ℝ),0],[1,1,1]] 1 1 false (by norm_num)
    ⟨[1,1,1], by simp, by norm_num⟩
    (by intro row hr; simp at hr; rcases hr with rfl | rfl <;> norm_num)
    (by norm_num)

/-! ## C3: the normalizer does not use the true per-dimension minimum -/

/-- C3: on `[[1,2],[3,4]]` the normalizer's running minimum is still its seed
`f64::MIN_POSITIVE` (and the running maximum's seed is `0.0`), so the first
x-value maps to `(1 - 2⁻¹⁰²²)/(3 - 2⁻¹⁰²²) ≈ 1/3` instead of the
`(1 - 1)/(3 - 1) = 0` required by the true-minimum specification. -/
theorem minmax_min_seed_cex :
    minmax_normalize [[(1:ℝ),2],[3,4]] =
      .ok [[(1 - f64MINPOS)/(3 - f64MINPOS), (2 - f64MINPOS)/(4 - f64MINPOS)],
           [(3 - f64MINPOS)/(3 - f64MINPOS), (4 - f64MINPOS)/(4 - f64MINPOS)]] ∧
    (1 - f64MINPOS)/(3 - f64MINPOS) ≠ (1 - 1)/((3:ℝ) - 1) := by
  have heps1 : f64MINPOS ≤ 1 := by
    have := f64MINPOS_small
    linarith
  have heps3 : f64MINPOS ≤ 3 := by
    have := f64MINPOS_small
    linarith
  have heps2 : f64MINPOS ≤ 2 := by
    have := f64MINPOS_small
    linarith
  constructor
  · unfold minmax_normalize
    rw [if_neg (by simp), if_neg (by simp), if_neg (by simp)]
    simp only [List.headD_cons, List.length_cons, List.length_nil, List.foldl_cons,
      List.foldl_nil, List.getD_cons_zero, List.getD_cons_succ]
    rw [show List.range 2 = [0, 1] from rfl]
    simp only [List.map_cons, List.map_nil, List.getD_cons_zero, List.getD_cons_succ]
    rw [min_eq_left heps1, min_eq_left heps3, min_eq_left heps2,
      min_eq_left (by have := f64MINPOS_small; linarith : f64MINPOS ≤ 4),
      max_eq_right (by norm_num : (0:ℝ) ≤ 1), max_eq_right (by norm_num : (1:ℝ) ≤ 3),
      max_eq_right (by norm_num : (0:ℝ) ≤ 2), max_eq_right (by norm_num : (2:ℝ) ≤ 4)]
  · have hpos : 0 < (1 - f64MINPOS)/(3 - f64MINPOS) := by
      apply div_pos <;> · have := f64MINPOS_small; linarith
    rw [show (1 - 1)/((3:ℝ) - 1) = 0 by norm_num]
    exact ne_of_gt hpos

/-! ## C8: every returned point is an input row, in input order -/

theorem confirmCands_sublist_map (data nd : List (List ℝ)) (step : ℝ) (fe : Bool) (n : ℕ) :
    ∀ cs : List ℕ,
      List.Sublist (confirmCands data nd step fe n cs)
        (cs.map (fun c => data.getD c [])) := by
  intro cs
  induction cs with
  | nil => simp [confirmCands]
  | cons c rest ih =>
    simp only [confirmCands, List.map_cons]
    split_ifs with hc
    · simpa using List.Sublist.cons₂ (data.getD c []) ih
    · simpa using List.Sublist.cons (data.getD c []) ih

theorem map_getD_shift {α : Type} (d : α) (is : List ℕ) (a : α) (t : List α)
    (hpos : ∀ j ∈ is, 0 < j) :
    is.map (fun i => (a :: t).getD i d) = (is.map (fun i => i - 1)).map (fun i => t.getD i d) := by
  rw [List.map_map]
  apply List.map_congr_left
  intro j hj
  have h := hpos j hj
  cases j with
  | zero => omega
  | succ k => simp

theorem map_getD_sublist {α : Type} (d : α) :
    ∀ (l : List α) (is : List ℕ), is.Pairwise (· < ·) → (∀ i ∈ is, i < l.length) →
      List.Sublist (is.map (fun i => l.getD i d)) l := by
  intro l
  induction l with
  | nil =>
    intro is _ hb
    cases is with
    | nil => simp
    | cons i t => exact absurd (hb i (by simp)) (by simp)
  | cons a t ih =>
    intro is hp hb
    cases is with
    | nil => simp
    | cons i it =>
      rcases Nat.eq_zero_or_pos i with rfl | hipos
      · have hpos : ∀ j ∈ it, 0 < j := fun j hj => (List.pairwise_cons.mp hp).1 j hj
        simp only [List.map_cons, List.getD_cons_zero]
        apply List.Sublist.cons₂
        rw [map_getD_shift d it a t hpos]
        apply ih
        · rw [List.pairwise_map]
          exact ((List.pairwise_cons.mp hp).2).imp_of_mem
            (fun ha hb hlt => by
              have := hpos _ ha
              omega)
        · intro j hj
          obtain ⟨k, hk, rfl⟩ := List.mem_map.mp hj
          have h1 := hb k (by simp [hk])
          have h2 := hpos k hk
          simp only [List.length_cons] at h1
          omega
      · have hpos : ∀ j ∈ i :: it, 0 < j := by
          intro j hj
          rcases List.mem_cons.mp hj with rfl | hj2
          · exact hipos
          · exact lt_trans hipos ((List.pairwise_cons.mp hp).1 j hj2)
        rw [map_getD_shift d (i :: it) a t hpos]
        apply List.Sublist.cons
        apply ih
        · rw [List.pairwise_map]
          exact hp.imp_of_mem
            (fun ha hb hlt => by
              have := hpos _ ha
              omega)
        · intro j hj
          obtain ⟨k, hk, rfl⟩ := List.mem_map.mp hj
          have h1 := hb k hk
          have h2 := hpos k hk
          simp only [List.length_cons] at h1
          omega

/-- C8: whenever `kneedle` returns successfully, the result is a sublist of
the original input curve — each returned point is an unmodified input row
(one per confirmed candidate, candidates being visited in ascending index
order), so in particular every returned point occurs in the input. -/
theorem kneedle_result_from_input (data : List (List ℝ)) (s : ℤ) (w : ℕ) (fe : Bool)
    (res : List (List ℝ)) (h : kneedle data s w fe = .ok res) :
    res.Sublist data ∧ ∀ p ∈ res, p ∈ data := by
  unfold kneedle at h
  split_ifs at h with h0 hd
  cases hp : prepare data w with
    | error e =>
      simp only [hp] at h
      exact Except.noConfusion h
    | ok nd =>
      simp only [hp] at h
      injection h with h
      subst h
      have hnd : nd.length = data.length := prepare_length hp
      have hsub := confirmCands_sublist_map data nd (kneedleStep nd s fe) fe data.length
        (find_candidate_indices nd fe)
      have hmap : List.Sublist
          ((find_candidate_indices nd fe).map (fun c => data.getD c [])) data := by
        apply map_getD_sublist
        · exact (List.pairwise_lt_range' 1 (nd.length - 1 - 1)).sublist
            (List.filter_sublist _)
        · intro c hc
          have hcr := List.mem_range'_1.mp (List.mem_of_mem_filter hc)
          omega
      have hfinal := hsub.trans hmap
      exact ⟨hfinal, fun p hp2 => hfinal.subset hp2⟩

theorem gaussian_smooth2d_ok (data : List (List ℝ)) (w : ℕ) (h0 : data.length ≠ 0)
    (hd : (data.headD []).length ≠ 0) (hw : w ≠ 0)
    (hrows : ∀ row ∈ data, row.length = (data.headD []).length) :
    gaussian_smooth2d data w =
      .ok ((List.range data.length).map (fun i => smoothIdx data w i)) := by
  unfold gaussian_smooth2d
  rw [if_neg h0, if_neg hd, if_neg hw]
  exact smoothLoop_ok data w hrows (List.range data.length)
    (fun i hi => List.mem_range.mp hi)

theorem minmax_normalize_ok_of (l : List (List ℝ)) (h0 : l.length ≠ 0)
    (hd : (l.headD []).length ≠ 0)
    (hrows : ∀ row ∈ l, row.length = (l.headD []).length) :
    ∃ r, minmax_normalize l = .ok r ∧ r.length = l.length := by
  unfold minmax_normalize
  rw [if_neg h0, if_neg hd, if_neg ?_]
  · exact ⟨_, rfl, by simp⟩
  rintro hx
  obtain ⟨row, hr, hdec⟩ := List.any_eq_true.mp hx
  rw [decide_eq_true_eq] at hdec
  exact hdec (hrows row hr)

theorem prepare_ok_of (data : List (List ℝ)) (w : ℕ) (h0 : data.length ≠ 0)
    (hd2 : (data.headD []).length ≠ 0) (hw : w ≠ 0)
    (hrows : ∀ row ∈ data, row.length = (data.headD []).length) :
    ∃ nd, prepare data w = .ok nd ∧ nd.length = data.length := by
  have hsm := gaussian_smooth2d_ok data w h0 hd2 hw hrows
  set sm := (List.range data.length).map (fun i => smoothIdx data w i) with hsmdef
  have hsl : sm.length = data.length := by simp [hsmdef]
  have hshead : (sm.headD []).length = (data.headD []).length := by
    obtain ⟨m, hm⟩ : ∃ m, data.length = m + 1 := ⟨data.length - 1, by omega⟩
    rw [hsmdef, hm, List.range_succ_eq_map]
    simp [smoothIdx]
  have hsrows : ∀ row ∈ sm, row.length = (sm.headD []).length := by
    intro row hr
    rw [hshead]
    obtain ⟨i, hi, rfl⟩ := List.mem_map.mp hr
    simp [smoothIdx]
  obtain ⟨r, hr, hrl⟩ := minmax_normalize_ok_of sm (by rw [hsl]; exact h0)
    (by rw [hshead]; exact hd2) hsrows
  refine ⟨r.map (fun row => row.set 1 (row.getD 1 0 - row.getD 0 0)), ?_, ?_⟩
  · unfold prepare
    simp only [hsm, hr]
  · simp [hrl, hsl]

theorem kneedle_two_point_eval : kneedle [[(0:ℝ),0],[1,1]] 1 1 false = .ok [] := by
  obtain ⟨nd, hnd, hlen⟩ := prepare_ok_of [[(0:ℝ),0],[1,1]] 1 (by simp) (by simp)
    (by simp) (by intro row hr; simp at hr; rcases hr with rfl | rfl <;> simp)
  unfold kneedle
  rw [if_neg (by simp), if_neg (by simp)]
  simp only [hnd]
  have hcand : find_candidate_indices nd false = [] := by
    unfold find_candidate_indices
    rw [show nd.length - 1 - 1 = 0 by rw [hlen]; rfl]
    rfl
  rw [hcand]
  rfl

/-- C8 witness: on the concrete 2-point curve `[[0,0],[1,1]]` the call
succeeds (with the empty result), which is a sublist of the input. -/
theorem kneedle_result_from_input_witness :
    ([] : List (List ℝ)).Sublist [[(0:ℝ),0],[1,1]] ∧
      ∀ p ∈ ([] : List (List ℝ)), p ∈ [[(0:ℝ),0],[1,1]] :=
  kneedle_result_from_input [[(0:ℝ),0],[1,1]] 1 1 false [] kneedle_two_point_eval

/-! ## C1: the golden 10-point scenario

The pipeline is evaluated symbolically in the weight `eH = exp(-1/2)`,
using the rational bounds `0.6065 < eH < 0.6066` derived from the Mathlib
bounds on `exp 1`. -/

theorem eH_pos : (0:ℝ) < eH := Real.exp_pos _

theorem eH_sq : eH * eH = (Real.exp 1)⁻¹ := by
  unfold eH
  rw [← Real.exp_add, show (-(1/2 : ℝ)) + (-(1/2)) = -1 by norm_num]
  exact Real.exp_neg 1

theorem eH_sq_lb : (0.36787944 : ℝ) < eH * eH := by
  rw [eH_sq]
  have h := Real.exp_one_lt_d9
  have h2 : ((2.7182818286 : ℝ))⁻¹ < (Real.exp 1)⁻¹ :=
    inv_strictAnti₀ (Real.exp_pos 1) h
  have h3 : (0.36787944 : ℝ) < (2.7182818286 : ℝ)⁻¹ := by norm_num
  linarith

theorem eH_sq_ub : eH * eH < 0.36787945 := by
  rw [eH_sq]
  have h := Real.exp_one_gt_d9
  have h2 : (Real.exp 1)⁻¹ < ((2.7182818283 : ℝ))⁻¹ :=
    inv_strictAnti₀ (by norm_num) h
  have h3 : ((2.7182818283 : ℝ))⁻¹ < 0.36787945 := by norm_num
  linarith

theorem eH_gt : (0.6065 : ℝ) < eH := by
  nlinarith [eH_sq_lb, eH_pos]

theorem eH_lt : eH < 0.6066 := by
  nlinarith [eH_sq_ub, eH_pos]

theorem smoothWeight_self (w i : ℕ) : smoothWeight w i i = 1 := by
  unfold smoothWeight indexScore gaussian
  norm_num

theorem smoothWeight_adj (i j : ℕ) (h : (j:ℤ) - (i:ℤ) = 1 ∨ (j:ℤ) - (i:ℤ) = -1) :
    smoothWeight 1 i j = eH := by
  unfold smoothWeight indexScore gaussian eH
  rcases h with h | h <;> rw [h] <;> norm_num

theorem s0x_gt : (0.03775286:ℝ) < s0x := by
  unfold s0x
  rw [lt_div_iff₀ (by linarith [eH_pos])]
  linarith [eH_gt, eH_lt]

theorem s0x_lt : s0x < 0.03775677 := by
  unfold s0x
  rw [div_lt_iff₀ (by linarith [eH_pos])]
  linarith [eH_gt, eH_lt]

theorem s1x_eq : s1x = 0.1 := by
  unfold s1x
  rw [div_eq_iff (ne_of_gt (by linarith [eH_pos]))]
  ring

theorem s2x_gt : (0.2137031:ℝ) < s2x := by
  unfold s2x
  rw [lt_div_iff₀ (by linarith [eH_pos])]
  linarith [eH_gt, eH_lt]

theorem s2x_lt : s2x < 0.21370415 := by
  unfold s2x
  rw [div_lt_iff₀ (by linarith [eH_pos])]
  linarith [eH_gt, eH_lt]

theorem s3x_gt : (0.33629585:ℝ) < s3x := by
  unfold s3x
  rw [lt_div_iff₀ (by linarith [eH_pos])]
  linarith [eH_gt, eH_lt]

theorem s3x_lt : s3x < 0.3362969 := by
  unfold s3x
  rw [div_lt_iff₀ (by linarith [eH_pos])]
  linarith [eH_gt, eH_lt]

theorem s4x_eq : s4x = 0.45 := by
  unfold s4x
  rw [div_eq_iff (ne_of_gt (by linarith [eH_pos]))]
  ring

theorem s5x_gt : (0.55685154:ℝ) < s5x := by
  unfold s5x
  rw [lt_div_iff₀ (by linarith [eH_pos])]
  linarith [eH_gt, eH_lt]

theorem s5x_lt : s5x < 0.55685208 := by
  unfold s5x
  rw [div_lt_iff₀ (by linarith [eH_pos])]
  linarith [eH_gt, eH_lt]

theorem s6x_gt : (0.66814792:ℝ) < s6x := by
  unfold s6x
  rw [lt_div_iff₀ (by linarith [eH_pos])]
  linarith [eH_gt, eH_lt]

theorem s6x_lt : s6x < 0.66814846 := by
  unfold s6x
  rw [div_lt_iff₀ (by linarith [eH_pos])]
  linarith [eH_gt, eH_lt]

theorem s7x_eq : s7x = 0.775 := by
  unfold s7x
  rw [div_eq_iff (ne_of_gt (by linarith [eH_pos]))]
  ring

theorem s8x_gt : (0.88185154:ℝ) < s8x := by
  unfold s8x
  rw [lt_div_iff₀ (by linarith [eH_pos])]
  linarith [eH_gt, eH_lt]

theorem s8x_lt : s8x < 0.88185208 := by
  unfold s8x
  rw [div_lt_iff₀ (by linarith [eH_pos])]
  linarith [eH_gt, eH_lt]

theorem s9x_gt : (0.95280404:ℝ) < s9x := by
  unfold s9x
  rw [lt_div_iff₀ (by linarith [eH_pos])]
  linarith [eH_gt, eH_lt]

theorem s9x_lt : s9x < 0.95280892 := by
  unfold s9x
  rw [div_lt_iff₀ (by linarith [eH_pos])]
  linarith [eH_gt, eH_lt]

theorem s0y_gt : (0.20764082:ℝ) < s0y := by
  unfold s0y
  rw [lt_div_iff₀ (by linarith [eH_pos])]
  linarith [eH_gt, eH_lt]

theorem s0y_lt : s0y < 0.20766216 := by
  unfold s0y
  rw [div_lt_iff₀ (by linarith [eH_pos])]
  linarith [eH_gt, eH_lt]

theorem s1y_gt : (0.45407101:ℝ) < s1y := by
  unfold s1y
  rw [lt_div_iff₀ (by linarith [eH_pos])]
  linarith [eH_gt, eH_lt]

theorem s1y_lt : s1y < 0.45407819 := by
  unfold s1y
  rw [div_lt_iff₀ (by linarith [eH_pos])]
  linarith [eH_gt, eH_lt]

theorem s2y_gt : (0.71573964:ℝ) < s2y := by
  unfold s2y
  rw [lt_div_iff₀ (by linarith [eH_pos])]
  linarith [eH_gt, eH_lt]

theorem s2y_lt : s2y < 0.71574222 := by
  unfold s2y
  rw [div_lt_iff₀ (by linarith [eH_pos])]
  linarith [eH_gt, eH_lt]

theorem s3y_gt : (0.81814792:ℝ) < s3y := by
  unfold s3y
  rw [lt_div_iff₀ (by linarith [eH_pos])]
  linarith [eH_gt, eH_lt]

theorem s3y_lt : s3y < 0.81814846 := by
  unfold s3y
  rw [div_lt_iff₀ (by linarith [eH_pos])]
  linarith [eH_gt, eH_lt]

theorem s4y_gt : (0.86814792:ℝ) < s4y := by
  unfold s4y
  rw [lt_div_iff₀ (by linarith [eH_pos])]
  linarith [eH_gt, eH_lt]

theorem s4y_lt : s4y < 0.86814846 := by
  unfold s4y
  rw [div_lt_iff₀ (by linarith [eH_pos])]
  linarith [eH_gt, eH_lt]

theorem s5y_eq : s5y = 0.9 := by
  unfold s5y
  rw [div_eq_iff (ne_of_gt (by linarith [eH_pos]))]
  ring

theorem s6y_eq : s6y = 0.925 := by
  unfold s6y
  rw [div_eq_iff (ne_of_gt (by linarith [eH_pos]))]
  ring

theorem s7y_eq : s7y = 0.95 := by
  unfold s7y
  rw [div_eq_iff (ne_of_gt (by linarith [eH_pos]))]
  ring

theorem s8y_eq : s8y = 0.975 := by
  unfold s8y
  rw [div_eq_iff (ne_of_gt (by linarith [eH_pos]))]
  ring

theorem s9y_gt : (0.9905608:ℝ) < s9y := by
  unfold s9y
  rw [lt_div_iff₀ (by linarith [eH_pos])]
  linarith [eH_gt, eH_lt]

theorem s9y_lt : s9y < 0.9905618 := by
  unfold s9y
  rw [div_lt_iff₀ (by linarith [eH_pos])]
  linarith [eH_gt, eH_lt]

theorem sm_row0 : smoothIdx data10 1 0 = [s0x, s0y] := by
  have h1 : smoothWeight 1 0 0 = 1 := smoothWeight_self 1 0
  have h2 : smoothWeight 1 0 1 = eH := smoothWeight_adj 0 1 (Or.inl (by norm_num))
  unfold smoothIdx
  rw [show data10.length = 10 from rfl, show (data10.headD []).length = 2 from rfl]
  norm_num [List.range']
  rw [h1, h2]
  unfold s0x s0y data10
  rw [show List.range 2 = [0, 1] from rfl]
  norm_num [List.getD]
  try constructor
  all_goals ring

theorem sm_row1 : smoothIdx data10 1 1 = [s1x, s1y] := by
  have h1 : smoothWeight 1 1 0 = eH := smoothWeight_adj 1 0 (Or.inr (by norm_num))
  have h2 : smoothWeight 1 1 1 = 1 := smoothWeight_self 1 1
  have h3 : smoothWeight 1 1 2 = eH := smoothWeight_adj 1 2 (Or.inl (by norm_num))
  unfold smoothIdx
  rw [show data10.length = 10 from rfl, show (data10.headD []).length = 2 from rfl]
  norm_num [List.range']
  rw [h1, h2, h3]
  unfold s1x s1y data10
  rw [show List.range 2 = [0, 1] from rfl]
  norm_num [List.getD]
  try constructor
  all_goals ring

theorem sm_row2 : smoothIdx data10 1 2 = [s2x, s2y] := by
  have h1 : smoothWeight 1 2 1 = eH := smoothWeight_adj 2 1 (Or.inr (by norm_num))
  have h2 : smoothWeight 1 2 2 = 1 := smoothWeight_self 1 2
  have h3 : smoothWeight 1 2 3 = eH := smoothWeight_adj 2 3 (Or.inl (by norm_num))
  unfold smoothIdx
  rw [show data10.length = 10 from rfl, show (data10.headD []).length = 2 from rfl]
  norm_num [List.range']
  rw [h1, h2, h3]
  unfold s2x s2y data10
  rw [show List.range 2 = [0, 1] from rfl]
  norm_num [List.getD]
  try constructor
  all_goals ring

theorem sm_row3 : smoothIdx data10 1 3 = [s3x, s3y] := by
  have h1 : smoothWeight 1 3 2 = eH := smoothWeight_adj 3 2 (Or.inr (by norm_num))
  have h2 : smoothWeight 1 3 3 = 1 := smoothWeight_self 1 3
  have h3 : smoothWeight 1 3 4 = eH := smoothWeight_adj 3 4 (Or.inl (by norm_num))
  unfold smoothIdx
  rw [show data10.length = 10 from rfl, show (data10.headD []).length = 2 from rfl]
  norm_num [List.range']
  rw [h1, h2, h3]
  unfold s3x s3y data10
  rw [show List.range 2 = [0, 1] from rfl]
  norm_num [List.getD]
  try constructor
  all_goals ring

theorem sm_row4 : smoothIdx data10 1 4 = [s4x, s4y] := by
  have h1 : smoothWeight 1 4 3 = eH := smoothWeight_adj 4 3 (Or.inr (by norm_num))
  have h2 : smoothWeight 1 4 4 = 1 := smoothWeight_self 1 4
  have h3 : smoothWeight 1 4 5 = eH := smoothWeight_adj 4 5 (Or.inl (by norm_num))
  unfold smoothIdx
  rw [show data10.length = 10 from rfl, show (data10.headD []).length = 2 from rfl]
  norm_num [List.range']
  rw [h1, h2, h3]
  unfold s4x s4y data10
  rw [show List.range 2 = [0, 1] from rfl]
  norm_num [List.getD]
  try constructor
  all_goals ring

theorem sm_row5 : smoothIdx data10 1 5 = [s5x, s5y] := by
  have h1 : smoothWeight 1 5 4 = eH := smoothWeight_adj 5 4 (Or.inr (by norm_num))
  have h2 : smoothWeight 1 5 5 = 1 := smoothWeight_self 1 5
  have h3 : smoothWeight 1 5 6 = eH := smoothWeight_adj 5 6 (Or.inl (by norm_num))
  unfold smoothIdx
  rw [show data10.length = 10 from rfl, show (data10.headD []).length = 2 from rfl]
  norm_num [List.range']
  rw [h1, h2, h3]
  unfold s5x s5y data10
  rw [show List.range 2 = [0, 1] from rfl]
  norm_num [List.getD]
  try constructor
  all_goals ring

theorem sm_row6 : smoothIdx data10 1 6 = [s6x, s6y] := by
  have h1 : smoothWeight 1 6 5 = eH := smoothWeight_adj 6 5 (Or.inr (by norm_num))
  have h2 : smoothWeight 1 6 6 = 1 := smoothWeight_self 1 6
  have h3 : smoothWeight 1 6 7 = eH := smoothWeight_adj 6 7 (Or.inl (by norm_num))
  unfold smoothIdx
  rw [show data10.length = 10 from rfl, show (data10.headD []).length = 2 from rfl]
  norm_num [List.range']
  rw [h1, h2, h3]
  unfold s6x s6y data10
  rw [show List.range 2 = [0, 1] from rfl]
  norm_num [List.getD]
  try constructor
  all_goals ring

theorem sm_row7 : smoothIdx data10 1 7 = [s7x, s7y] := by
  have h1 : smoothWeight 1 7 6 = eH := smoothWeight_adj 7 6 (Or.inr (by norm_num))
  have h2 : smoothWeight 1 7 7 = 1 := smoothWeight_self 1 7
  have h3 : smoothWeight 1 7 8 = eH := smoothWeight_adj 7 8 (Or.inl (by norm_num))
  unfold smoothIdx
  rw [show data10.length = 10 from rfl, show (data10.headD []).length = 2 from rfl]
  norm_num [List.range']
  rw [h1, h2, h3]
  unfold s7x s7y data10
  rw [show List.range 2 = [0, 1] from rfl]
  norm_num [List.getD]
  try constructor
  all_goals ring

theorem sm_row8 : smoothIdx data10 1 8 = [s8x, s8y] := by
  have h1 : smoothWeight 1 8 7 = eH := smoothWeight_adj 8 7 (Or.inr (by norm_num))
  have h2 : smoothWeight 1 8 8 = 1 := smoothWeight_self 1 8
  have h3 : smoothWeight 1 8 9 = eH := smoothWeight_adj 8 9 (Or.inl (by norm_num))
  unfold smoothIdx
  rw [show data10.length = 10 from rfl, show (data10.headD []).length = 2 from rfl]
  norm_num [List.range']
  rw [h1, h2, h3]
  unfold s8x s8y data10
  rw [show List.range 2 = [0, 1] from rfl]
  norm_num [List.getD]
  try constructor
  all_goals ring

theorem sm_row9 : smoothIdx data10 1 9 = [s9x, s9y] := by
  have h1 : smoothWeight 1 9 8 = eH := smoothWeight_adj 9 8 (Or.inr (by norm_num))
  have h2 : smoothWeight 1 9 9 = 1 := smoothWeight_self 1 9
  unfold smoothIdx
  rw [show data10.length = 10 from rfl, show (data10.headD []).length = 2 from rfl]
  norm_num [List.range']
  rw [h1, h2]
  unfold s9x s9y data10
  rw [show List.range 2 = [0, 1] from rfl]
  norm_num [List.getD]
  try constructor
  all_goals ring

theorem smooth_golden : gaussian_smooth2d data10 1 = .ok smData := by
  have h := gaussian_smooth2d_ok data10 1 (by norm_num [data10]) (by norm_num [data10])
    (by norm_num)
    (by
      intro row hr
      simp only [data10, List.mem_cons, List.not_mem_nil, or_false] at hr
      rcases hr with rfl|rfl|rfl|rfl|rfl|rfl|rfl|rfl|rfl|rfl <;> rfl)
  rw [h, show List.range data10.length = [0,1,2,3,4,5,6,7,8,9] from rfl]
  simp only [List.map_cons, List.map_nil, sm_row0, sm_row1, sm_row2, sm_row3, sm_row4,
    sm_row5, sm_row6, sm_row7, sm_row8, sm_row9]
  rfl

theorem smfold_minx :
    smData.foldl (fun m row => min m (row.getD 0 0)) f64MINPOS = f64MINPOS := by
  refine foldl_min_eq_init (fun row => row.getD 0 0) smData f64MINPOS ?_
  intro r hr
  have he1 := f64MINPOS_pos
  have he2 := f64MINPOS_small
  simp only [smData, List.mem_cons, List.not_mem_nil, or_false] at hr
  rcases hr with rfl|rfl|rfl|rfl|rfl|rfl|rfl|rfl|rfl|rfl <;>
    · simp only [List.getD_cons_zero, getD1_pair]
      linarith [s0x_gt, s0x_lt, s1x_eq, s2x_gt, s2x_lt, s3x_gt, s3x_lt, s4x_eq, s5x_gt, s5x_lt, s6x_gt, s6x_lt, s7x_eq, s8x_gt, s8x_lt, s9x_gt, s9x_lt]

theorem smfold_maxx :
    smData.foldl (fun m row => max m (row.getD 0 0)) 0 = s9x := by
  refine foldl_max_eq_mem (fun row => row.getD 0 0) smData 0 s9x ?_ ?_ ?_
  · intro r hr
    simp only [smData, List.mem_cons, List.not_mem_nil, or_false] at hr
    rcases hr with rfl|rfl|rfl|rfl|rfl|rfl|rfl|rfl|rfl|rfl <;>
      · simp only [List.getD_cons_zero, getD1_pair]
        linarith [s0x_gt, s0x_lt, s1x_eq, s2x_gt, s2x_lt, s3x_gt, s3x_lt, s4x_eq, s5x_gt, s5x_lt, s6x_gt, s6x_lt, s7x_eq, s8x_gt, s8x_lt, s9x_gt, s9x_lt]
  · linarith [s9x_gt]
  · right
    exact ⟨[s9x, s9y], by simp [smData], by simp only [List.getD_cons_zero, getD1_pair]⟩

theorem smfold_miny :
    smData.foldl (fun m row => min m (row.getD 1 0)) f64MINPOS = f64MINPOS := by
  refine foldl_min_eq_init (fun row => row.getD 1 0) smData f64MINPOS ?_
  intro r hr
  have he1 := f64MINPOS_pos
  have he2 := f64MINPOS_small
  simp only [smData, List.mem_cons, List.not_mem_nil, or_false] at hr
  rcases hr with rfl|rfl|rfl|rfl|rfl|rfl|rfl|rfl|rfl|rfl <;>
    · simp only [List.getD_cons_zero, getD1_pair]
      linarith [s0y_gt, s0y_lt, s1y_gt, s1y_lt, s2y_gt, s2y_lt, s3y_gt, s3y_lt, s4y_gt, s4y_lt, s5y_eq, s6y_eq, s7y_eq, s8y_eq, s9y_gt, s9y_lt]

theorem smfold_maxy :
    smData.foldl (fun m row => max m (row.getD 1 0)) 0 = s9y := by
  refine foldl_max_eq_mem (fun row => row.getD 1 0) smData 0 s9y ?_ ?_ ?_
  · intro r hr
    simp only [smData, List.mem_cons, List.not_mem_nil, or_false] at hr
    rcases hr with rfl|rfl|rfl|rfl|rfl|rfl|rfl|rfl|rfl|rfl <;>
      · simp only [List.getD_cons_zero, getD1_pair]
        linarith [s0y_gt, s0y_lt, s1y_gt, s1y_lt, s2y_gt, s2y_lt, s3y_gt, s3y_lt, s4y_gt, s4y_lt, s5y_eq, s6y_eq, s7y_eq, s8y_eq, s9y_gt, s9y_lt]
  · linarith [s9y_gt]
  · right
    exact ⟨[s9x, s9y], by simp [smData], by simp only [List.getD_cons_zero, getD1_pair]⟩

theorem minmax_normalize_ok_eq (l : List (List ℝ)) (h0 : l.length ≠ 0)
    (hd : (l.headD []).length ≠ 0)
    (hrows : ∀ row ∈ l, row.length = (l.headD []).length) :
    minmax_normalize l = .ok (l.map (fun row =>
      (List.range (l.headD []).length).map (fun d =>
        (row.getD d 0 - l.foldl (fun m row => min m (row.getD d 0)) f64MINPOS) /
        (l.foldl (fun m row => max m (row.getD d 0)) 0 -
         l.foldl (fun m row => min m (row.getD d 0)) f64MINPOS)))) := by
  unfold minmax_normalize
  rw [if_neg h0, if_neg hd, if_neg ?_]
  rintro hx
  obtain ⟨row, hr, hdec⟩ := List.any_eq_true.mp hx
  rw [decide_eq_true_eq] at hdec
  exact hdec (hrows row hr)

theorem normalize_golden : minmax_normalize smData = .ok nmData := by
  rw [minmax_normalize_ok_eq smData (by norm_num [smData]) (by norm_num [smData])
    (by
      intro row hr
      simp only [smData, List.mem_cons, List.not_mem_nil, or_false] at hr
      rcases hr with rfl|rfl|rfl|rfl|rfl|rfl|rfl|rfl|rfl|rfl <;> rfl)]
  rw [show (smData.headD []).length = 2 from rfl, show List.range 2 = [0, 1] from rfl]
  simp only [List.map_cons, List.map_nil, smfold_minx, smfold_maxx, smfold_miny,
    smfold_maxy, List.getD_cons_zero, getD1_pair]
  rfl

theorem prepare_golden : prepare data10 1 = .ok ndData := by
  unfold prepare
  simp only [smooth_golden, normalize_golden]
  rfl

theorem nx0_gt : (0.03962167:ℝ) < nx0 := by
  unfold nx0
  rw [lt_div_iff₀ (by linarith [s9x_gt, f64MINPOS_pos, f64MINPOS_small])]
  linarith [s0x_gt, s0x_lt, s9x_gt, s9x_lt, f64MINPOS_pos, f64MINPOS_small]

theorem nx0_lt : nx0 < 0.03962702 := by
  unfold nx0
  rw [div_lt_iff₀ (by linarith [s9x_gt, f64MINPOS_pos, f64MINPOS_small])]
  linarith [s0x_gt, s0x_lt, s9x_gt, s9x_lt, f64MINPOS_pos, f64MINPOS_small]

theorem nx1_gt : (0.10495188:ℝ) < nx1 := by
  unfold nx1
  rw [lt_div_iff₀ (by linarith [s9x_gt, f64MINPOS_pos, f64MINPOS_small])]
  linarith [s1x_eq, s9x_gt, s9x_lt, f64MINPOS_pos, f64MINPOS_small]

theorem nx1_lt : nx1 < 0.10495339 := by
  unfold nx1
  rw [div_lt_iff₀ (by linarith [s9x_gt, f64MINPOS_pos, f64MINPOS_small])]
  linarith [s1x_eq, s9x_gt, s9x_lt, f64MINPOS_pos, f64MINPOS_small]

theorem nx2_gt : (0.22428664:ℝ) < nx2 := by
  unfold nx2
  rw [lt_div_iff₀ (by linarith [s9x_gt, f64MINPOS_pos, f64MINPOS_small])]
  linarith [s2x_gt, s2x_lt, s9x_gt, s9x_lt, f64MINPOS_pos, f64MINPOS_small]

theorem nx2_lt : nx2 < 0.22428973 := by
  unfold nx2
  rw [div_lt_iff₀ (by linarith [s9x_gt, f64MINPOS_pos, f64MINPOS_small])]
  linarith [s2x_gt, s2x_lt, s9x_gt, s9x_lt, f64MINPOS_pos, f64MINPOS_small]

theorem nx3_gt : (0.35295134:ℝ) < nx3 := by
  unfold nx3
  rw [lt_div_iff₀ (by linarith [s9x_gt, f64MINPOS_pos, f64MINPOS_small])]
  linarith [s3x_gt, s3x_lt, s9x_gt, s9x_lt, f64MINPOS_pos, f64MINPOS_small]

theorem nx3_lt : nx3 < 0.35295496 := by
  unfold nx3
  rw [div_lt_iff₀ (by linarith [s9x_gt, f64MINPOS_pos, f64MINPOS_small])]
  linarith [s3x_gt, s3x_lt, s9x_gt, s9x_lt, f64MINPOS_pos, f64MINPOS_small]

theorem nx4_gt : (0.4722872:ℝ) < nx4 := by
  unfold nx4
  rw [lt_div_iff₀ (by linarith [s9x_gt, f64MINPOS_pos, f64MINPOS_small])]
  linarith [s4x_eq, s9x_gt, s9x_lt, f64MINPOS_pos, f64MINPOS_small]

theorem nx4_lt : nx4 < 0.4722902 := by
  unfold nx4
  rw [div_lt_iff₀ (by linarith [s9x_gt, f64MINPOS_pos, f64MINPOS_small])]
  linarith [s4x_eq, s9x_gt, s9x_lt, f64MINPOS_pos, f64MINPOS_small]

theorem nx5_gt : (0.58443104:ℝ) < nx5 := by
  unfold nx5
  rw [lt_div_iff₀ (by linarith [s9x_gt, f64MINPOS_pos, f64MINPOS_small])]
  linarith [s5x_gt, s5x_lt, s9x_gt, s9x_lt, f64MINPOS_pos, f64MINPOS_small]

theorem nx5_lt : nx5 < 0.58443507 := by
  unfold nx5
  rw [div_lt_iff₀ (by linarith [s9x_gt, f64MINPOS_pos, f64MINPOS_small])]
  linarith [s5x_gt, s5x_lt, s9x_gt, s9x_lt, f64MINPOS_pos, f64MINPOS_small]

theorem nx6_gt : (0.70123987:ℝ) < nx6 := by
  unfold nx6
  rw [lt_div_iff₀ (by linarith [s9x_gt, f64MINPOS_pos, f64MINPOS_small])]
  linarith [s6x_gt, s6x_lt, s9x_gt, s9x_lt, f64MINPOS_pos, f64MINPOS_small]

theorem nx6_lt : nx6 < 0.70124438 := by
  unfold nx6
  rw [div_lt_iff₀ (by linarith [s9x_gt, f64MINPOS_pos, f64MINPOS_small])]
  linarith [s6x_gt, s6x_lt, s9x_gt, s9x_lt, f64MINPOS_pos, f64MINPOS_small]

theorem nx7_gt : (0.81338428:ℝ) < nx7 := by
  unfold nx7
  rw [lt_div_iff₀ (by linarith [s9x_gt, f64MINPOS_pos, f64MINPOS_small])]
  linarith [s7x_eq, s9x_gt, s9x_lt, f64MINPOS_pos, f64MINPOS_small]

theorem nx7_lt : nx7 < 0.81338867 := by
  unfold nx7
  rw [div_lt_iff₀ (by linarith [s9x_gt, f64MINPOS_pos, f64MINPOS_small])]
  linarith [s7x_eq, s9x_gt, s9x_lt, f64MINPOS_pos, f64MINPOS_small]

theorem nx8_gt : (0.92552812:ℝ) < nx8 := by
  unfold nx8
  rw [lt_div_iff₀ (by linarith [s9x_gt, f64MINPOS_pos, f64MINPOS_small])]
  linarith [s8x_gt, s8x_lt, s9x_gt, s9x_lt, f64MINPOS_pos, f64MINPOS_small]

theorem nx8_lt : nx8 < 0.92553354 := by
  unfold nx8
  rw [div_lt_iff₀ (by linarith [s9x_gt, f64MINPOS_pos, f64MINPOS_small])]
  linarith [s8x_gt, s8x_lt, s9x_gt, s9x_lt, f64MINPOS_pos, f64MINPOS_small]

theorem ny0_gt : (0.20961844:ℝ) < ny0 := by
  unfold ny0
  rw [lt_div_iff₀ (by linarith [s9y_gt, f64MINPOS_pos, f64MINPOS_small])]
  linarith [s0y_gt, s0y_lt, s9y_gt, s9y_lt, f64MINPOS_pos, f64MINPOS_small]

theorem ny0_lt : ny0 < 0.20964102 := by
  unfold ny0
  rw [div_lt_iff₀ (by linarith [s9y_gt, f64MINPOS_pos, f64MINPOS_small])]
  linarith [s0y_gt, s0y_lt, s9y_gt, s9y_lt, f64MINPOS_pos, f64MINPOS_small]

theorem ny1_gt : (0.4583969:ℝ) < ny1 := by
  unfold ny1
  rw [lt_div_iff₀ (by linarith [s9y_gt, f64MINPOS_pos, f64MINPOS_small])]
  linarith [s1y_gt, s1y_lt, s9y_gt, s9y_lt, f64MINPOS_pos, f64MINPOS_small]

theorem ny1_lt : ny1 < 0.45840518 := by
  unfold ny1
  rw [div_lt_iff₀ (by linarith [s9y_gt, f64MINPOS_pos, f64MINPOS_small])]
  linarith [s1y_gt, s1y_lt, s9y_gt, s9y_lt, f64MINPOS_pos, f64MINPOS_small]

theorem ny2_gt : (0.722559:ℝ) < ny2 := by
  unfold ny2
  rw [lt_div_iff₀ (by linarith [s9y_gt, f64MINPOS_pos, f64MINPOS_small])]
  linarith [s2y_gt, s2y_lt, s9y_gt, s9y_lt, f64MINPOS_pos, f64MINPOS_small]

theorem ny2_lt : ny2 < 0.72256265 := by
  unfold ny2
  rw [div_lt_iff₀ (by linarith [s9y_gt, f64MINPOS_pos, f64MINPOS_small])]
  linarith [s2y_gt, s2y_lt, s9y_gt, s9y_lt, f64MINPOS_pos, f64MINPOS_small]

theorem ny3_gt : (0.82594315:ℝ) < ny3 := by
  unfold ny3
  rw [lt_div_iff₀ (by linarith [s9y_gt, f64MINPOS_pos, f64MINPOS_small])]
  linarith [s3y_gt, s3y_lt, s9y_gt, s9y_lt, f64MINPOS_pos, f64MINPOS_small]

theorem ny3_lt : ny3 < 0.82594473 := by
  unfold ny3
  rw [div_lt_iff₀ (by linarith [s9y_gt, f64MINPOS_pos, f64MINPOS_small])]
  linarith [s3y_gt, s3y_lt, s9y_gt, s9y_lt, f64MINPOS_pos, f64MINPOS_small]

theorem ny4_gt : (0.87641961:ℝ) < ny4 := by
  unfold ny4
  rw [lt_div_iff₀ (by linarith [s9y_gt, f64MINPOS_pos, f64MINPOS_small])]
  linarith [s4y_gt, s4y_lt, s9y_gt, s9y_lt, f64MINPOS_pos, f64MINPOS_small]

theorem ny4_lt : ny4 < 0.87642119 := by
  unfold ny4
  rw [div_lt_iff₀ (by linarith [s9y_gt, f64MINPOS_pos, f64MINPOS_small])]
  linarith [s4y_gt, s4y_lt, s9y_gt, s9y_lt, f64MINPOS_pos, f64MINPOS_small]

theorem ny5_gt : (0.90857521:ℝ) < ny5 := by
  unfold ny5
  rw [lt_div_iff₀ (by linarith [s9y_gt, f64MINPOS_pos, f64MINPOS_small])]
  linarith [s5y_eq, s9y_gt, s9y_lt, f64MINPOS_pos, f64MINPOS_small]

theorem ny5_lt : ny5 < 0.90857625 := by
  unfold ny5
  rw [div_lt_iff₀ (by linarith [s9y_gt, f64MINPOS_pos, f64MINPOS_small])]
  linarith [s5y_eq, s9y_gt, s9y_lt, f64MINPOS_pos, f64MINPOS_small]

theorem ny6_gt : (0.93381344:ℝ) < ny6 := by
  unfold ny6
  rw [lt_div_iff₀ (by linarith [s9y_gt, f64MINPOS_pos, f64MINPOS_small])]
  linarith [s6y_eq, s9y_gt, s9y_lt, f64MINPOS_pos, f64MINPOS_small]

theorem ny6_lt : ny6 < 0.93381448 := by
  unfold ny6
  rw [div_lt_iff₀ (by linarith [s9y_gt, f64MINPOS_pos, f64MINPOS_small])]
  linarith [s6y_eq, s9y_gt, s9y_lt, f64MINPOS_pos, f64MINPOS_small]

theorem ny7_gt : (0.95905167:ℝ) < ny7 := by
  unfold ny7
  rw [lt_div_iff₀ (by linarith [s9y_gt, f64MINPOS_pos, f64MINPOS_small])]
  linarith [s7y_eq, s9y_gt, s9y_lt, f64MINPOS_pos, f64MINPOS_small]

theorem ny7_lt : ny7 < 0.95905271 := by
  unfold ny7
  rw [div_lt_iff₀ (by linarith [s9y_gt, f64MINPOS_pos, f64MINPOS_small])]
  linarith [s7y_eq, s9y_gt, s9y_lt, f64MINPOS_pos, f64MINPOS_small]

theorem ny8_gt : (0.98428989:ℝ) < ny8 := by
  unfold ny8
  rw [lt_div_iff₀ (by linarith [s9y_gt, f64MINPOS_pos, f64MINPOS_small])]
  linarith [s8y_eq, s9y_gt, s9y_lt, f64MINPOS_pos, f64MINPOS_small]

theorem ny8_lt : ny8 < 0.98429093 := by
  unfold ny8
  rw [div_lt_iff₀ (by linarith [s9y_gt, f64MINPOS_pos, f64MINPOS_small])]
  linarith [s8y_eq, s9y_gt, s9y_lt, f64MINPOS_pos, f64MINPOS_small]

theorem nx9_eq : nx9 = 1 := by
  unfold nx9
  exact div_self (by linarith [s9x_gt, f64MINPOS_pos, f64MINPOS_small])

theorem not_cand_1 : ¬ candPred ndData false 1 := by
  intro hcp
  have h2 : False := by
    rcases hcp with ⟨hb, -, -⟩ | ⟨-, -, h⟩
    · exact absurd hb (by decide)
    have h2 : ny2 - nx2 < ny1 - nx1 := h
    linarith [nx1_gt, nx1_lt, ny1_gt, ny1_lt, nx2_gt, nx2_lt, ny2_gt, ny2_lt]
  exact h2

theorem not_cand_3 : ¬ candPred ndData false 3 := by
  intro hcp
  have h2 : False := by
    rcases hcp with ⟨hb, -, -⟩ | ⟨-, h, -⟩
    · exact absurd hb (by decide)
    have h2 : ny2 - nx2 < ny3 - nx3 := h
    linarith [nx2_gt, nx2_lt, ny2_gt, ny2_lt, nx3_gt, nx3_lt, ny3_gt, ny3_lt]
  exact h2

theorem not_cand_4 : ¬ candPred ndData false 4 := by
  intro hcp
  have h2 : False := by
    rcases hcp with ⟨hb, -, -⟩ | ⟨-, h, -⟩
    · exact absurd hb (by decide)
    have h2 : ny3 - nx3 < ny4 - nx4 := h
    linarith [nx3_gt, nx3_lt, ny3_gt, ny3_lt, nx4_gt, nx4_lt, ny4_gt, ny4_lt]
  exact h2

theorem not_cand_5 : ¬ candPred ndData false 5 := by
  intro hcp
  have h2 : False := by
    rcases hcp with ⟨hb, -, -⟩ | ⟨-, h, -⟩
    · exact absurd hb (by decide)
    have h2 : ny4 - nx4 < ny5 - nx5 := h
    linarith [nx4_gt, nx4_lt, ny4_gt, ny4_lt, nx5_gt, nx5_lt, ny5_gt, ny5_lt]
  exact h2

theorem not_cand_6 : ¬ candPred ndData false 6 := by
  intro hcp
  have h2 : False := by
    rcases hcp with ⟨hb, -, -⟩ | ⟨-, h, -⟩
    · exact absurd hb (by decide)
    have h2 : ny5 - nx5 < ny6 - nx6 := h
    linarith [nx5_gt, nx5_lt, ny5_gt, ny5_lt, nx6_gt, nx6_lt, ny6_gt, ny6_lt]
  exact h2

theorem not_cand_7 : ¬ candPred ndData false 7 := by
  intro hcp
  have h2 : False := by
    rcases hcp with ⟨hb, -, -⟩ | ⟨-, h, -⟩
    · exact absurd hb (by decide)
    have h2 : ny6 - nx6 < ny7 - nx7 := h
    linarith [nx6_gt, nx6_lt, ny6_gt, ny6_lt, nx7_gt, nx7_lt, ny7_gt, ny7_lt]
  exact h2

theorem not_cand_8 : ¬ candPred ndData false 8 := by
  intro hcp
  have h2 : False := by
    rcases hcp with ⟨hb, -, -⟩ | ⟨-, h, -⟩
    · exact absurd hb (by decide)
    have h2 : ny7 - nx7 < ny8 - nx8 := h
    linarith [nx7_gt, nx7_lt, ny7_gt, ny7_lt, nx8_gt, nx8_lt, ny8_gt, ny8_lt]
  exact h2

theorem cand_2 : candPred ndData false 2 := by
  right
  refine ⟨rfl, ?_, ?_⟩
  · show ny1 - nx1 < ny2 - nx2
    linarith [nx1_gt, nx1_lt, ny1_gt, ny1_lt, nx2_gt, nx2_lt, ny2_gt, ny2_lt]
  · show ny3 - nx3 < ny2 - nx2
    linarith [nx3_gt, nx3_lt, ny3_gt, ny3_lt, nx2_gt, nx2_lt, ny2_gt, ny2_lt]

theorem candidates_golden : find_candidate_indices ndData false = [2] := by
  unfold find_candidate_indices
  rw [show ndData.length - 1 - 1 = 8 from rfl,
    show List.range' 1 8 = [1, 2, 3, 4, 5, 6, 7, 8] from rfl]
  simp only [List.filter_cons, List.filter_nil]
  rw [decide_eq_false not_cand_1, decide_eq_true cand_2, decide_eq_false not_cand_3,
    decide_eq_false not_cand_4, decide_eq_false not_cand_5, decide_eq_false not_cand_6,
    decide_eq_false not_cand_7, decide_eq_false not_cand_8]
  simp

theorem cav_golden : compute_average_variance ndData = (nx9 - nx0) / 9 := by
  have h : compute_average_variance ndData =
      ((nx1 - nx0) + ((nx2 - nx1) + ((nx3 - nx2) + ((nx4 - nx3) + ((nx5 - nx4) +
        ((nx6 - nx5) + ((nx7 - nx6) + ((nx8 - nx7) + ((nx9 - nx8) + 0))))))))) /
        ((9:ℕ):ℝ) := rfl
  rw [h]
  push_cast
  ring

theorem step_golden : kneedleStep ndData 1 false = -((1 - nx0) / 9) := by
  unfold kneedleStep
  rw [if_neg (by simp), cav_golden, nx9_eq]
  push_cast
  ring

/-- C1: on the golden 10-point concave curve, `kneedle` with sensitivity 1,
window 1 and `find_elbow = false` returns exactly one point, `(0.2, 0.75)`. -/
theorem kneedle_golden : kneedle data10 1 1 false = .ok [[0.2, 0.75]] := by
  unfold kneedle
  rw [if_neg (by norm_num [data10]), if_neg (by norm_num [data10])]
  simp only [prepare_golden]
  rw [candidates_golden]
  simp only [confirmCands]
  rw [if_pos ?hconf]
  · rfl
  case hconf =>
    have hd5 : ny5 - nx5 < (ny2 - nx2) + kneedleStep ndData 1 false := by
      rw [step_golden]
      linarith [nx0_gt, nx0_lt, nx2_gt, nx2_lt, ny2_gt, ny2_lt, nx5_gt, nx5_lt, ny5_gt, ny5_lt]
    apply List.any_eq_true.mpr
    refine ⟨5, ?_, ?_⟩
    · rw [show data10.length - (2 + 1) = 7 from rfl]
      decide
    · rw [decide_eq_true_eq]
      exact Or.inr ⟨rfl, hd5⟩

end KneedleRs

end